import Mathlib

/-
Verification of the options-ranking pipeline (src/main.go) against its
natural-language specification.

Modelling conventions:
* Go `float64` values are modelled as rationals (every finite float is a
  rational number, and the program only ever compares these fields, never
  does float arithmetic on them).
* Go `int` and `int64` are modelled as `Int` (no arithmetic is performed on
  them in the modelled code, so overflow is not reachable).
* Go maps (`map[string]map[string][]OptionContract`) are modelled as
  association lists; the list order stands for the (unspecified) iteration
  order of the Go map.
* HTTP traffic is modelled by an explicit world/oracle record that fixes the
  status codes and bodies the remote endpoints answer with; each outbound
  request performed by the code is recorded in a call log.
* Fallible Go code returning `error` is modelled with `Except`.
-/

namespace Options

/-- Model of Go `float64` for the fields of this program: the program only
stores and order-compares these values, so finite floats embed faithfully
into the rationals. -/
abbrev Float64 := ℚ

/-- The `Underlying` struct of src/main.go (lines 22-27). -/
structure Underlying where
  PercentChange    : Float64
  Last             : Float64
  FiftyTwoWeekHigh : Float64
  FiftyTwoWeekLow  : Float64


/-- The `OptionContract` struct of src/main.go (lines 29-74), one decoded
contract entry of the option chain response. -/
structure OptionContract where
  PutCall                : String
  Symbol                 : String
  Description            : String
  ExchangeName           : String
  Bid                    : Float64
  Ask                    : Float64
  Last                   : Float64
  Mark                   : Float64
  BidSize                : Int
  AskSize                : Int
  BidAskSize             : String
  LastSize               : Int
  HighPrice              : Float64
  LowPrice               : Float64
  OpenPrice              : Float64
  ClosePrice             : Float64
  TotalVolume            : Int
  TradeTimeInLong        : Int
  QuoteTimeInLong        : Int
  NetChange              : Float64
  Volatility             : Float64
  Delta                  : Float64
  Gamma                  : Float64
  Theta                  : Float64
  Vega                   : Float64
  Rho                    : Float64
  OpenInterest           : Int
  TimeValue              : Float64
  TheoreticalOptionValue : Float64
  TheoreticalVolatility  : Float64
  StrikePrice            : Float64
  ExpirationDate         : String
  DaysToExpiration       : Int
  ExpirationType         : String
  LastTradingDay         : Int
  Multiplier             : Float64
  SettlementType         : String
  DeliverableNote        : String
  PercentChange          : Float64
  MarkChange             : Float64
  MarkPercentChange      : Float64
  IntrinsicValue         : Float64
  ExtrinsicValue         : Float64
  InTheMoney             : Bool


/-- One (expiration date, strikes) level of the chain maps: the inner map
from strike price to contract list, as an association list. -/
abbrev StrikeMap := List (String × List OptionContract)

/-- The `OptionsChain` struct of src/main.go (lines 76-81); the two nested
maps are modelled as association lists whose order is the map iteration
order. -/
structure OptionsChain where
  Symbol         : String
  Underlying     : Underlying
  CallExpDateMap : List (String × StrikeMap)
  PutExpDateMap  : List (String × StrikeMap)


/-- The flat `Option` record struct of src/main.go (lines 83-128). Inside
this namespace the name `Option` refers to this structure, mirroring the
source name. -/
structure Option where
  Symbol                 : String
  Description            : String
  ExchangeName           : String
  LastStockPrice         : Float64
  stockPercentChange     : Float64
  lastPrice              : Float64
  fiftyTwoWeekHigh       : Float64
  fiftyTwoWeekLow        : Float64
  optionType             : String
  OptionSymbol           : String
  Bid                    : Float64
  Ask                    : Float64
  Last                   : Float64
  Mark                   : Float64
  BidSize                : Int
  AskSize                : Int
  BidAskSize             : String
  LastSize               : Int
  HighPrice              : Float64
  LowPrice               : Float64
  OpenPrice              : Float64
  ClosePrice             : Float64
  TotalVolume            : Int
  NetChange              : Float64
  Volatility             : Float64
  Delta                  : Float64
  Gamma                  : Float64
  Theta                  : Float64
  Vega                   : Float64
  Rho                    : Float64
  OpenInterest           : Int
  TimeValue              : Float64
  TheoreticalOptionValue : Float64
  TheoreticalVolatility  : Float64
  StrikePrice            : Float64
  ExpirationDate         : String
  DaysToExpiration       : Int
  LastTradingDay         : Int
  PercentChange          : Float64
  MarkChange             : Float64
  MarkPercentChange      : Float64
  IntrinsicValue         : Float64
  ExtrinsicValue         : Float64
  InTheMoney             : Bool


/-- The record built from the first-listed contract of a leaf, src/main.go
lines 368-413: contract fields are copied from `contracts[0]`, the
underlying-level fields from `optionsChain.Underlying`. -/
def buildOption (stock : String) (u : Underlying) (c : OptionContract) : Option where
  Symbol                 := stock
  Description            := c.Description
  ExchangeName           := c.ExchangeName
  LastStockPrice         := u.Last
  stockPercentChange     := u.PercentChange
  lastPrice              := c.Last
  fiftyTwoWeekHigh       := u.FiftyTwoWeekHigh
  fiftyTwoWeekLow        := u.FiftyTwoWeekLow
  optionType             := c.PutCall
  OptionSymbol           := c.Symbol
  Bid                    := c.Bid
  Ask                    := c.Ask
  Last                   := c.Last
  Mark                   := c.Mark
  BidSize                := c.BidSize
  AskSize                := c.AskSize
  BidAskSize             := c.BidAskSize
  LastSize               := c.LastSize
  HighPrice              := c.HighPrice
  LowPrice               := c.LowPrice
  OpenPrice              := c.OpenPrice
  ClosePrice             := c.ClosePrice
  TotalVolume            := c.TotalVolume
  NetChange              := c.NetChange
  Volatility             := c.Volatility
  Delta                  := c.Delta
  Gamma                  := c.Gamma
  Theta                  := c.Theta
  Vega                   := c.Vega
  Rho                    := c.Rho
  OpenInterest           := c.OpenInterest
  TimeValue              := c.TimeValue
  TheoreticalOptionValue := c.TheoreticalOptionValue
  TheoreticalVolatility  := c.TheoreticalVolatility
  StrikePrice            := c.StrikePrice
  ExpirationDate         := c.ExpirationDate
  DaysToExpiration       := c.DaysToExpiration
  LastTradingDay         := c.LastTradingDay
  PercentChange          := c.PercentChange
  MarkChange             := c.MarkChange
  MarkPercentChange      := c.MarkPercentChange
  IntrinsicValue         := c.IntrinsicValue
  ExtrinsicValue         := c.ExtrinsicValue
  InTheMoney             := c.InTheMoney

/-- The body of the innermost loop of `getOptionsData`, src/main.go lines
367-417: if the contract list of the current leaf is non-empty
(`len(contracts) > 0`), build an `Option` from its first contract
(`contracts[0]`) and keep it exactly when its volatility is positive
(lines 414-416); the records an iteration appends to `options`. -/
def leafRecords (stock : String) (u : Underlying) (contracts : List OptionContract) :
    List Option :=
  match contracts with
  | [] => []
  | c :: _ =>
    let option := buildOption stock u c
    if option.Volatility > 0 then [option] else []

/-- The record-building loop of `getOptionsData`, src/main.go lines 361-420:
for each of the call-side and put-side maps, for each expiration, for each
strike, append the records of that leaf. -/
def buildOptions (stock : String) (chain : OptionsChain) : List Option :=
  ([chain.CallExpDateMap, chain.PutExpDateMap]).flatMap (fun optionTypeMap =>
    optionTypeMap.flatMap (fun strikes =>
      strikes.2.flatMap (fun contractsEntry =>
        leafRecords stock chain.Underlying contractsEntry.2)))

/-- One outbound HTTP request made by the modelled code: a chain fetch with
the bearer token it carries (src/main.go line 316) or a token-exchange
request with the refresh token it sends (src/main.go lines 428-429). -/
inductive ApiCall where
  | chainFetch (bearerToken : String)
  | tokenExchange (refreshToken : String)
deriving DecidableEq, Repr

/-- The remote answer to one chain request: the HTTP status code, and the
decoded body. The `Except` error covers both a body read failure and a JSON
unmarshal failure (src/main.go lines 350-359); both produce an error return
and neither is distinguished further by the code. -/
structure ChainResponse where
  status : Nat
  body : Except String OptionsChain

/-- Oracle fixing what the network answers during one `getOptionsData`
call: the response to the first chain request, the outcome of the token
exchange performed by `refreshTokens` (src/main.go lines 424-464) if a 401
is seen, and the response to the retried chain request. -/
structure FetchWorld where
  first : ChainResponse
  refresh : Except String (String × String)
  retry : ChainResponse

/-- `getOptionsData`, src/main.go lines 300-422, over the network oracle:
returns the outbound call log together with the result. On a 401 first
response it calls `refreshTokens` (one token-exchange request is made
whether or not the exchange succeeds) and, when the exchange succeeds,
retries the chain request exactly once with the new access token; the
retried response must be 200 or the job errors out. On a non-401 non-200
first response it errors out. The token pair in a successful result is the
refreshed pair on the 401 path (lines 344-345) and the caller-supplied pair
otherwise. -/
def getOptionsData (stock accessToken refreshToken : String) (w : FetchWorld) :
    List ApiCall × Except String (List Option × String × String) :=
  if w.first.status = 401 then
    match w.refresh with
    | .error e =>
        ([.chainFetch accessToken, .tokenExchange refreshToken],
         .error ("error refreshing token: " ++ e))
    | .ok (newAccessToken, newRefreshToken) =>
        let calls := [ApiCall.chainFetch accessToken, ApiCall.tokenExchange refreshToken,
                      ApiCall.chainFetch newAccessToken]
        if w.retry.status ≠ 200 then
          (calls, .error "API call failed with status code after token refresh")
        else
          match w.retry.body with
          | .error e => (calls, .error e)
          | .ok chain =>
              (calls, .ok (buildOptions stock chain, newAccessToken, newRefreshToken))
  else if w.first.status ≠ 200 then
    ([.chainFetch accessToken], .error "API call failed with status code")
  else
    match w.first.body with
    | .error e => ([.chainFetch accessToken], .error e)
    | .ok chain =>
        ([.chainFetch accessToken], .ok (buildOptions stock chain, accessToken, refreshToken))

/-- Per-job world for a worker: whether `limiter.Wait` returns an error
(src/main.go lines 276-280; with `context.Background()` this branch is in
fact unreachable, it is kept because it is in the code), and the network
world consulted by `getOptionsData` for this job. -/
structure JobWorld where
  limiterErr : Bool
  fetch : FetchWorld

/-- The local token variables of one worker goroutine (the `accessToken`,
`refreshToken` parameters of `worker`, src/main.go line 274). Each worker
receives its own copies by value; there is no shared token state between
workers. -/
structure WorkerState where
  accessToken : String
  refreshToken : String
deriving DecidableEq, Repr

/-- One iteration of the worker loop, src/main.go lines 275-297: wait on the
limiter (on error, log and continue with nothing sent), fetch, on fetch
error log and continue with nothing sent, on success overwrite the local
tokens with the returned ones when those are non-empty and send the batch.
The third component is the batch sent on the results channel, or an error
when the iteration sends nothing. -/
def workerStep (st : WorkerState) (stock : String) (jw : JobWorld) :
    WorkerState × List ApiCall × Except String (List Option) :=
  if jw.limiterErr then (st, [], .error "Rate limiter error")
  else
    match getOptionsData stock st.accessToken st.refreshToken jw.fetch with
    | (calls, .error e) => (st, calls, .error e)
    | (calls, .ok (options, newAccessToken, newRefreshToken)) =>
        (⟨if newAccessToken ≠ "" then newAccessToken else st.accessToken,
          if newRefreshToken ≠ "" then newRefreshToken else st.refreshToken⟩,
         calls, .ok options)

/-- A worker draining its share of the jobs channel (the `for stock := range
jobs` loop of `worker`, src/main.go lines 275-298): threads the local token
state through its jobs in order, concatenates the outbound call logs, and
collects one result batch per successful job; a failed job sends nothing
(`continue`, lines 279 and 285). -/
def workerRun (st : WorkerState) (jobs : List (String × JobWorld)) :
    WorkerState × List ApiCall × List (List Option) :=
  match jobs with
  | [] => (st, [], [])
  | (stock, jw) :: rest =>
    let step := workerStep st stock jw
    let restRun := workerRun step.1 rest
    (restRun.1, step.2.1 ++ restRun.2.1,
     match step.2.2 with
     | .error _ => restRun.2.2
     | .ok batch => batch :: restRun.2.2)

/-- The collection loop of `main`, src/main.go lines 170-173: `main`
performs exactly `len(stockTickers)` receives on the buffered results
channel, and workers send exactly one batch per successful job and nothing
for a failed job. The loop therefore terminates exactly when the number of
batches sent equals the number of tickers; otherwise the final receive
blocks forever (all workers have exited, nobody will send). Modelled over
the schedule in which one worker drains every job; the sent-batch count is
the same for every assignment of jobs to workers. -/
def mainCollectionCompletes (st : WorkerState) (tickers : List (String × JobWorld)) : Bool :=
  (workerRun st tickers).2.2.length == tickers.length

/-- Number of token-exchange requests in a call log. -/
def exchangeCount (calls : List ApiCall) : Nat :=
  calls.countP (fun c => match c with | .tokenExchange _ => true | _ => false)

/-- Number of chain-fetch requests in a call log. -/
def chainFetchCount (calls : List ApiCall) : Nat :=
  calls.countP (fun c => match c with | .chainFetch _ => true | _ => false)

/-- The Go slice expression `xs[:hi]`: a run-time panic (`slice bounds out
of range`) when `hi` exceeds the length. (Go checks the bound against the
capacity; the capacity of the collected slice equals its length up to
allocator rounding, and any `hi` beyond the length already reaches past the
collected records, so the panic bound is modelled at the length.) -/
def goSliceTo {α : Type} (xs : List α) (hi : Nat) : Except String (List α) :=
  if hi ≤ xs.length then .ok (xs.take hi) else .error "slice bounds out of range"

/-- The Go index expression `xs[i]` with an `int` index: a run-time panic
(`index out of range`) unless `0 ≤ i < len(xs)`. -/
def goIndex {α : Type} (xs : List α) (i : Int) : Except String α :=
  if h : 0 ≤ i ∧ i.toNat < xs.length then .ok (xs.get ⟨i.toNat, h.2⟩)
  else .error "index out of range"

/-- The top-IV print loop of `main`, src/main.go line 180: it ranges over
`options[:40]`, with no clamping of the bound. -/
def topSelection (options : List Option) : Except String (List Option) :=
  goSliceTo options 40

/-- The bottom-IV print loop of `main`, src/main.go lines 194-195: for
`i = 0..39` it reads `options[len(options)-1-i]`, with no clamping of the
count. -/
def bottomSelection (options : List Option) : Except String (List Option) :=
  (List.range 40).mapM (fun i => goIndex options ((options.length : Int) - 1 - i))

/-- The comparison closure passed to `sort.Slice`, src/main.go lines
175-177: strictly greater volatility. -/
def volLess (a b : Option) : Bool := decide (a.Volatility > b.Volatility)

/-- Modelled from the Go standard library contract of `sort.Slice` (the
call on src/main.go line 175; the sort implementation itself is not part of
this repository): the output is a permutation of the input that is sorted
with respect to the provided less function, and — per the documentation of
`sort.Slice` — the sort is not guaranteed to be stable, so any sorted
permutation is an allowed outcome. -/
def sortSliceSpec (xs ys : List Option) : Prop :=
  xs.Perm ys ∧ ys.Pairwise (fun a b => volLess b a = false)

/-- Stability of a sort outcome: records with any given volatility appear
in the output in the same relative order as in the input. -/
def stableTies (xs ys : List Option) : Prop :=
  ∀ v : ℚ, ys.filter (fun o => decide (o.Volatility = v)) =
    xs.filter (fun o => decide (o.Volatility = v))

/-- The rate limiter configuration: `rate.NewLimiter(rate.Limit(120), 120)`,
src/main.go line 155. Per the `golang.org/x/time/rate` documentation, a
`Limit` is a number of events per SECOND, so this is a token bucket with
burst capacity 120 and a refill rate of 120 tokens per second. (The Go
burst is an `int`; it is modelled as the rational it embeds into, since it
is only compared with and added to token counts.) -/
structure Limiter where
  limit : ℚ
  burst : ℚ

/-- The limiter built by `main`, src/main.go line 155. -/
def schwabLimiter : Limiter := ⟨120, 120⟩

/-- Mutable limiter state of `golang.org/x/time/rate.Limiter`: the token
count and the time of the last update, in seconds. -/
structure LimState where
  tokens : ℚ
  last : ℚ

/-- `Limiter.advance` of `golang.org/x/time/rate`: the token count after
refilling for the elapsed time, clamped at the burst capacity
(`if tokens > burst { tokens = burst }`). -/
def advance (l : Limiter) (s : LimState) (t : ℚ) : ℚ :=
  let tokens := s.tokens + (t - s.last) * l.limit
  if l.burst < tokens then l.burst else tokens

/-- One `limiter.Wait(ctx)` call made at time `t` (src/main.go line 276):
`reserveN` advances the bucket, takes one token (the count may go
negative), and the caller sleeps until the time at which the bucket debt is
repaid; the returned time is when the waiter wakes up and proceeds to
its fetch. -/
def waitStep (l : Limiter) (s : LimState) (t : ℚ) : LimState × ℚ :=
  let tok := advance l s t - 1
  let act := if tok < 0 then t + (-tok) / l.limit else t
  (⟨tok, t⟩, act)

/-- The admission times produced by a sequence of `Wait` calls arriving at
the given (nondecreasing) times. -/
def waitRun (l : Limiter) (s : LimState) (ts : List ℚ) : List ℚ :=
  match ts with
  | [] => []
  | t :: rest =>
    let step := waitStep l s t
    step.2 :: waitRun l step.1 rest

/-- The limiter state at process start (time 0): `rate.NewLimiter` starts
with a full bucket (its `advance` from the zero time clamps the token count
to the burst). -/
def limiterStart : LimState := ⟨120, 0⟩

/-- Number of admissions that fall inside the window `[s, s + w]`. -/
def admissionsWithin (acts : List ℚ) (s w : ℚ) : Nat :=
  acts.countP (fun t => decide (s ≤ t) && decide (t ≤ s + w))

/-- `dropCR` of `bufio.ScanLines`: strips one trailing carriage return from
a scanned token. -/
def dropCR (l : List Char) : List Char :=
  if l.getLast? = some '\r' then l.dropLast else l

/-- The scanning loop of `bufio.Scanner` with the default `ScanLines` split
function, used by `readStocksFile` (src/main.go lines 474-477): tokens are
the maximal `'\n'`-free runs, the newline is consumed and not part of the
token, a trailing `'\r'` is stripped from each token, and a final token is
produced at EOF only when non-empty input remains after the last newline.
`acc` holds the characters of the token being scanned, in reverse. -/
def scanLinesGo (acc : List Char) : List Char → List (List Char)
  | [] => if acc.isEmpty then [] else [dropCR acc.reverse]
  | ch :: rest =>
    if ch = '\n' then dropCR acc.reverse :: scanLinesGo [] rest
    else scanLinesGo (ch :: acc) rest

/-- `readStocksFile`, src/main.go lines 466-484, applied to the contents of
the tickers file: every token produced by the scanner is appended to the
result verbatim (`lines = append(lines, scanner.Text())`) — there is no
trimming and no skipping of blank lines. -/
def readStocksFile (contents : List Char) : List (List Char) :=
  scanLinesGo [] contents

/-- The contents of a text file holding the given lines, each terminated by
a newline. -/
def linesToFile (lines : List (List Char)) : List Char :=
  lines.flatMap (fun l => l ++ ['\n'])

/-- All (expiration, strike) leaves of the two chain maps, call side first,
each leaf given by its contract list, in map-iteration order. -/
def chainLeaves (chain : OptionsChain) : List (List OptionContract) :=
  ([chain.CallExpDateMap, chain.PutExpDateMap]).flatMap (fun m =>
    m.flatMap (fun ep => ep.2.map (fun sp => sp.2)))

/-- A contract record with every field zeroed, used to build concrete test
inputs. -/
def defaultContract : OptionContract where
  PutCall                := ""
  Symbol                 := ""
  Description            := ""
  ExchangeName           := ""
  Bid                    := 0
  Ask                    := 0
  Last                   := 0
  Mark                   := 0
  BidSize                := 0
  AskSize                := 0
  BidAskSize             := ""
  LastSize               := 0
  HighPrice              := 0
  LowPrice               := 0
  OpenPrice              := 0
  ClosePrice             := 0
  TotalVolume            := 0
  TradeTimeInLong        := 0
  QuoteTimeInLong        := 0
  NetChange              := 0
  Volatility             := 0
  Delta                  := 0
  Gamma                  := 0
  Theta                  := 0
  Vega                   := 0
  Rho                    := 0
  OpenInterest           := 0
  TimeValue              := 0
  TheoreticalOptionValue := 0
  TheoreticalVolatility  := 0
  StrikePrice            := 0
  ExpirationDate         := ""
  DaysToExpiration       := 0
  ExpirationType         := ""
  LastTradingDay         := 0
  Multiplier             := 0
  SettlementType         := ""
  DeliverableNote        := ""
  PercentChange          := 0
  MarkChange             := 0
  MarkPercentChange      := 0
  IntrinsicValue         := 0
  ExtrinsicValue         := 0
  InTheMoney             := false

/-- A contract with the given option symbol and volatility. -/
def mkContract (sym : String) (vol : ℚ) : OptionContract :=
  { defaultContract with Symbol := sym, Volatility := vol }

/-- A zeroed underlying quote. -/
def u0 : Underlying := ⟨0, 0, 0, 0⟩

/-- Concrete test chain for AAPL: three call-side leaves with volatilities
10, 50, 30 and one put-side leaf with volatility 20. -/
def chainAAPL : OptionsChain :=
  ⟨"AAPL", ⟨1, 150, 200, 100⟩,
   [("2026-01-16", [("150", [mkContract "A1" 10]), ("155", [mkContract "A2" 50])]),
    ("2026-02-20", [("150", [mkContract "A3" 30])])],
   [("2026-01-16", [("150", [mkContract "A4" 20])])]⟩

/-- Concrete test chain for MSFT: two call-side leaves with volatilities
90 and 5. -/
def chainMSFT : OptionsChain :=
  ⟨"MSFT", ⟨2, 400, 500, 300⟩,
   [("2026-01-16", [("400", [mkContract "M1" 90]), ("405", [mkContract "M2" 5])])],
   []⟩

/-- An empty chain (no leaves at all). -/
def emptyChain : OptionsChain := ⟨"E", u0, [], []⟩

/-- A chain whose single leaf holds one contract with volatility 0. -/
def zeroVolChain : OptionsChain :=
  ⟨"Z", u0, [("2026-01-16", [("100", [mkContract "Z1" 0])])], []⟩

/-- Network world of a job that succeeds at once: first response 200 with
the AAPL chain. -/
def okWorldAAPL : FetchWorld :=
  ⟨⟨200, .ok chainAAPL⟩, .error "token endpoint not consulted", ⟨0, .error "no retry"⟩⟩

/-- Network world of a job that succeeds at once with the MSFT chain. -/
def okWorldMSFT : FetchWorld :=
  ⟨⟨200, .ok chainMSFT⟩, .error "token endpoint not consulted", ⟨0, .error "no retry"⟩⟩

/-- Network world of a job whose fetch fails with HTTP 500. -/
def failWorld : FetchWorld :=
  ⟨⟨500, .error "server error"⟩, .error "token endpoint not consulted", ⟨0, .error "no retry"⟩⟩

/-- Network world of a worker that sees a stale-token 401, refreshes
successfully obtaining the pair (A1, R1), and retries with a 200 answer. -/
def refreshWorld1 : FetchWorld :=
  ⟨⟨401, .error "Unauthorized"⟩, .ok ("A1", "R1"), ⟨200, .ok emptyChain⟩⟩

/-- Same as `refreshWorld1`, but the token endpoint hands out the distinct
pair (A2, R2) — each exchange of one refresh token mints a fresh pair. -/
def refreshWorld2 : FetchWorld :=
  ⟨⟨401, .error "Unauthorized"⟩, .ok ("A2", "R2"), ⟨200, .ok emptyChain⟩⟩

/-- The worker-local token state both workers start from: the initial pair
handed to every worker by `main` (src/main.go line 162). -/
def st0 : WorkerState := ⟨"A0", "R0"⟩

/-- Job list for the failure-isolation scenario: the AAPL fetch always fails
with HTTP 500, the MSFT fetch succeeds. -/
def c2Tickers : List (String × JobWorld) :=
  [("AAPL", ⟨false, failWorld⟩), ("MSFT", ⟨false, okWorldMSFT⟩)]

/-- Five collected records, fewer than K = 40: volatilities 90, 50, 30, 10,
5 (already in descending order). -/
def fiveRecords : List Option :=
  [buildOption "MSFT" u0 (mkContract "M1" 90),
   buildOption "AAPL" u0 (mkContract "A2" 50),
   buildOption "AAPL" u0 (mkContract "A3" 30),
   buildOption "AAPL" u0 (mkContract "A1" 10),
   buildOption "MSFT" u0 (mkContract "M2" 5)]

/-- Two records with equal volatility 5 and distinct option symbols. -/
def tieA : Option := buildOption "T" u0 (mkContract "TA" 5)

/-- Second record of the tie, listed after `tieA` in the input. -/
def tieB : Option := buildOption "T" u0 (mkContract "TB" 5)

/-- Helper: every record kept by the record-building loop has positive
volatility, because of the `option.Volatility > 0` guard on src/main.go
line 414. -/
theorem vol_pos_of_mem_buildOptions {stock : String} {chain : OptionsChain}
    {o : Option} (h : o ∈ buildOptions stock chain) : 0 < o.Volatility := by
  simp only [buildOptions, List.mem_flatMap] at h
  obtain ⟨m, _, ep, _, sp, _, ho⟩ := h
  cases hc : sp.2 with
  | nil => rw [hc] at ho; simp [leafRecords] at ho
  | cons c rest =>
      rw [hc] at ho
      simp only [leafRecords] at ho
      split at ho
      · rename_i hpos
        rw [List.mem_singleton] at ho
        exact ho ▸ hpos
      · simp at ho

/-- C5: every record in a successful result of `getOptionsData` has
positive volatility — records with volatility ≤ 0 are dropped by the guard
on src/main.go line 414 before the sequence is returned, so they never
reach the aggregator or the output. -/
theorem fetch_returns_only_positive_volatility
    (stock accessToken refreshToken : String) (w : FetchWorld)
    (opts : List Option) (a r : String)
    (hok : (getOptionsData stock accessToken refreshToken w).2 = .ok (opts, a, r)) :
    ∀ o ∈ opts, 0 < o.Volatility := by
  intro o ho
  simp only [getOptionsData] at hok
  split at hok
  · split at hok
    · simp at hok
    · split at hok
      · simp at hok
      · split at hok
        · simp at hok
        · simp only [Except.ok.injEq, Prod.mk.injEq] at hok
          obtain ⟨h1, -, -⟩ := hok
          subst h1
          exact vol_pos_of_mem_buildOptions ho
  · split at hok
    · simp at hok
    · split at hok
      · simp at hok
      · simp only [Except.ok.injEq, Prod.mk.injEq] at hok
        obtain ⟨h1, -, -⟩ := hok
        subst h1
        exact vol_pos_of_mem_buildOptions ho

/-- C5 witness: the theorem applied to a concrete 200 fetch of the AAPL
chain; the first returned record has volatility 10 > 0. -/
theorem fetch_returns_only_positive_volatility_witness :
    0 < (buildOption "AAPL" ⟨1, 150, 200, 100⟩ (mkContract "A1" 10)).Volatility :=
  fetch_returns_only_positive_volatility "AAPL" "A0" "R0" okWorldAAPL
    (buildOptions "AAPL" chainAAPL) "A0" "R0" rfl
    (buildOption "AAPL" ⟨1, 150, 200, 100⟩ (mkContract "A1" 10))
    (List.mem_cons_self _ _)

/-- C10: when the first chain response is not a 401 and `getOptionsData`
succeeds, the returned access and refresh tokens are exactly the ones the
function was called with (the token variables are only reassigned inside
the 401 branch, src/main.go lines 344-345). -/
theorem tokens_unchanged_without_unauthorized
    (stock a r : String) (w : FetchWorld) (h401 : w.first.status ≠ 401)
    (opts : List Option) (a2 r2 : String)
    (hok : (getOptionsData stock a r w).2 = .ok (opts, a2, r2)) :
    a2 = a ∧ r2 = r := by
  simp only [getOptionsData, if_neg h401] at hok
  split at hok
  · simp at hok
  · split at hok
    · simp at hok
    · simp only [Except.ok.injEq, Prod.mk.injEq] at hok
      exact ⟨hok.2.1.symm, hok.2.2.symm⟩

/-- C10 witness: a concrete 200 fetch returns the caller-supplied pair
(A0, R0) unchanged. -/
theorem tokens_unchanged_without_unauthorized_witness :
    "A0" = "A0" ∧ "R0" = "R0" :=
  tokens_unchanged_without_unauthorized "AAPL" "A0" "R0" okWorldAAPL (by decide)
    (buildOptions "AAPL" chainAAPL) "A0" "R0" rfl

/-- Helper: an iteration of the worker loop that sends nothing leaves the
worker-local token state untouched. -/
theorem workerStep_error_state {st : WorkerState} {stock : String} {jw : JobWorld}
    {e : String} (h : (workerStep st stock jw).2.2 = .error e) :
    (workerStep st stock jw).1 = st := by
  unfold workerStep at h ⊢
  by_cases hl : jw.limiterErr = true
  · rw [if_pos hl]
  · rw [if_neg hl] at h ⊢
    rcases hg : getOptionsData stock st.accessToken st.refreshToken jw.fetch with ⟨calls, res⟩
    rcases res with e2 | ⟨opts, nA, nR⟩
    · rfl
    · rw [hg] at h; simp at h

/-- C6: per job, a 401 first response triggers one token exchange and, when
the exchange succeeds, exactly one retried chain fetch carrying the
refreshed access token; a failed exchange, a non-200 retried response, or a
non-401 non-200 first response makes the job error out; an errored job
sends no batch and the worker continues with the remaining jobs exactly as
before (no pool abort, no further retries). -/
theorem unauthorized_refresh_retry_once_policy (stock a r : String) (w : FetchWorld) :
    (w.first.status = 401 → ∀ nA nR, w.refresh = .ok (nA, nR) →
      (getOptionsData stock a r w).1 =
        [ApiCall.chainFetch a, ApiCall.tokenExchange r, ApiCall.chainFetch nA]) ∧
    (w.first.status = 401 → ∀ e, w.refresh = .error e →
      (getOptionsData stock a r w).1 = [ApiCall.chainFetch a, ApiCall.tokenExchange r] ∧
      (getOptionsData stock a r w).2 = .error ("error refreshing token: " ++ e)) ∧
    (w.first.status ≠ 401 → (getOptionsData stock a r w).1 = [ApiCall.chainFetch a]) ∧
    (w.first.status = 401 → w.retry.status ≠ 200 →
      ∃ msg, (getOptionsData stock a r w).2 = .error msg) ∧
    (w.first.status ≠ 401 → w.first.status ≠ 200 →
      ∃ msg, (getOptionsData stock a r w).2 = .error msg) ∧
    (∀ st stock2 jw e rest, (workerStep st stock2 jw).2.2 = .error e →
      (workerRun st ((stock2, jw) :: rest)).2.2 = (workerRun st rest).2.2) := by
  refine ⟨?_, ?_, ?_, ?_, ?_, ?_⟩
  · intro h401 nA nR hr
    simp only [getOptionsData, if_pos h401, hr]
    split
    · rfl
    · split <;> rfl
  · intro h401 e hr
    simp only [getOptionsData, if_pos h401, hr]
    constructor <;> trivial
  · intro h401
    simp only [getOptionsData, if_neg h401]
    split
    · rfl
    · split <;> rfl
  · intro h401 hretry
    simp only [getOptionsData, if_pos h401]
    split
    · exact ⟨_, rfl⟩
    · rw [if_pos hretry]
      exact ⟨_, rfl⟩
  · intro h401 h200
    simp only [getOptionsData, if_neg h401, if_pos h200]
    exact ⟨_, rfl⟩
  · intro st stock2 jw e rest herr
    have hstate := workerStep_error_state herr
    simp only [workerRun]
    rw [herr, hstate]

/-- C6 witness: the theorem at a concrete 401-then-refresh-then-200 world: the
call log is exactly the first fetch with the stale token, one token
exchange, and one retried fetch with the refreshed token. -/
theorem unauthorized_refresh_retry_once_policy_witness :
    (getOptionsData "AAPL" "A0" "R0" refreshWorld1).1 =
      [ApiCall.chainFetch "A0", ApiCall.tokenExchange "R0", ApiCall.chainFetch "A1"] :=
  (unauthorized_refresh_retry_once_policy "AAPL" "A0" "R0" refreshWorld1).1 rfl "A1" "R1" rfl

/-- C2 (code bug): with tickers [AAPL, MSFT] where the AAPL fetch fails
with HTTP 500, one batch is sent (for MSFT), not one per submitted job, and
the collection loop of `main` — which performs exactly `len(stockTickers)`
receives on the results channel — can never finish its second receive: the
run blocks forever instead of completing and ranking the MSFT records. -/
theorem failed_job_starves_collection_loop :
    (workerRun st0 c2Tickers).2.2.length = 1 ∧
    c2Tickers.length = 2 ∧
    mainCollectionCompletes st0 c2Tickers = false :=
  ⟨rfl, rfl, rfl⟩

/-- C3 (code bug): with only five collected records, `main` panics instead
of clamping: the top-IV loop slices `options[:40]` (slice bounds out of
range, src/main.go line 180) and the bottom-IV loop reads
`options[len(options)-1-i]` for `i` up to 39 (index out of range for i = 5,
src/main.go line 195). -/
theorem unclamped_selection_panics_on_small_input :
    topSelection fiveRecords = .error "slice bounds out of range" ∧
    bottomSelection fiveRecords = .error "index out of range" :=
  ⟨rfl, rfl⟩

/-- C1 counterexample: two workers holding the same stale pair (A0, R0)
each observe a 401 on their job; the code performs one token exchange per
worker — two outbound exchange requests in total, not one — and the two
workers end up holding the distinct pairs minted by their own exchanges. -/
theorem refresh_is_not_single_flight_counterexample :
    ¬ (exchangeCount ((workerRun st0 [("AAPL", ⟨false, refreshWorld1⟩)]).2.1 ++
         (workerRun st0 [("MSFT", ⟨false, refreshWorld2⟩)]).2.1) = 1 ∧
       (workerRun st0 [("AAPL", ⟨false, refreshWorld1⟩)]).1 =
         (workerRun st0 [("MSFT", ⟨false, refreshWorld2⟩)]).1) := by
  decide

/-- Helper: `exchangeCount` adds over list concatenation. -/
theorem exchangeCount_append (l1 l2 : List ApiCall) :
    exchangeCount (l1 ++ l2) = exchangeCount l1 + exchangeCount l2 :=
  List.countP_append _ _ _

/-- Helper: when the first chain response is a 401, `getOptionsData` makes
exactly one token-exchange request, whether or not the exchange succeeds. -/
theorem exchangeCount_getOptionsData_401 (stock a r : String) (w : FetchWorld)
    (h401 : w.first.status = 401) :
    exchangeCount (getOptionsData stock a r w).1 = 1 := by
  simp only [getOptionsData, if_pos h401]
  split
  · rfl
  · split
    · rfl
    · split <;> rfl

/-- Helper: when the limiter lets the worker through, the calls logged by the
worker iteration are exactly those of its `getOptionsData` call. -/
theorem workerStep_calls (st : WorkerState) (stock : String) (jw : JobWorld)
    (hl : jw.limiterErr = false) :
    (workerStep st stock jw).2.1 =
      (getOptionsData stock st.accessToken st.refreshToken jw.fetch).1 := by
  unfold workerStep
  rw [if_neg (by simp [hl])]
  rcases getOptionsData stock st.accessToken st.refreshToken jw.fetch with ⟨calls, res⟩
  rcases res with e | ⟨opts, nA, nR⟩ <;> rfl

/-- Helper: a one-job worker run logs exactly the calls of that job and
ends in the state produced by that job. -/
theorem workerRun_single (st : WorkerState) (stock : String) (jw : JobWorld) :
    (workerRun st [(stock, jw)]).2.1 = (workerStep st stock jw).2.1 ∧
    (workerRun st [(stock, jw)]).1 = (workerStep st stock jw).1 := by
  simp only [workerRun]
  rcases hres : (workerStep st stock jw).2.2 with e | b <;>
    simp [List.append_nil]

/-- C1 amended: there is no single-flight coalescing — every worker that
observes a 401 performs its own token exchange (N workers observing a 401
on the same stale refresh token make N outbound token-exchange requests),
and each worker subsequently holds the credential pair handed out by its
own exchange, which need not equal the pair any other worker holds. -/
theorem per_worker_refresh (workers : List (WorkerState × String × JobWorld))
    (h : ∀ p ∈ workers, p.2.2.limiterErr = false ∧ p.2.2.fetch.first.status = 401) :
    exchangeCount (workers.flatMap (fun p => (workerRun p.1 [(p.2.1, p.2.2)]).2.1)) =
      workers.length ∧
    ∀ p ∈ workers, ∀ nA nR, p.2.2.fetch.refresh = .ok (nA, nR) → nA ≠ "" → nR ≠ "" →
      p.2.2.fetch.retry.status = 200 → (∃ chain, p.2.2.fetch.retry.body = .ok chain) →
      (workerRun p.1 [(p.2.1, p.2.2)]).1 = ⟨nA, nR⟩ := by
  constructor
  · induction workers with
    | nil => rfl
    | cons p rest ih =>
      have hp := h p (List.mem_cons_self _ _)
      have hrest : ∀ q ∈ rest, q.2.2.limiterErr = false ∧ q.2.2.fetch.first.status = 401 :=
        fun q hq => h q (List.mem_cons_of_mem _ hq)
      rw [List.flatMap_cons, exchangeCount_append, (workerRun_single _ _ _).1,
        workerStep_calls _ _ _ hp.1, exchangeCount_getOptionsData_401 _ _ _ _ hp.2,
        ih hrest, List.length_cons, Nat.add_comm]
  · intro p hp nA nR hr hnA hnR hretry hbody
    obtain ⟨chain, hchain⟩ := hbody
    have hp2 := h p hp
    have hgod : getOptionsData p.2.1 p.1.accessToken p.1.refreshToken p.2.2.fetch =
        ([ApiCall.chainFetch p.1.accessToken, ApiCall.tokenExchange p.1.refreshToken,
          ApiCall.chainFetch nA],
         .ok (buildOptions p.2.1 chain, nA, nR)) := by
      simp only [getOptionsData, if_pos hp2.2, hr, hchain]
      rw [if_neg (by simp [hretry])]
    rw [(workerRun_single _ _ _).2]
    unfold workerStep
    rw [if_neg (by simp [hp2.1]), hgod]
    simp only [if_pos hnA, if_pos hnR]

/-- C1 amended witness: the theorem at the two concrete 401-observing
workers of the counterexample — two exchange requests in total, and the
first worker ends up holding exactly the pair (A1, R1) its own exchange
returned. -/
theorem per_worker_refresh_witness :
    exchangeCount
      (([(st0, ("AAPL", (⟨false, refreshWorld1⟩ : JobWorld))),
         (st0, ("MSFT", (⟨false, refreshWorld2⟩ : JobWorld)))]).flatMap
        (fun p => (workerRun p.1 [(p.2.1, p.2.2)]).2.1)) = 2 ∧
    (workerRun st0 [("AAPL", ⟨false, refreshWorld1⟩)]).1 = ⟨"A1", "R1"⟩ := by
  have h : ∀ p ∈ [(st0, ("AAPL", (⟨false, refreshWorld1⟩ : JobWorld))),
      (st0, ("MSFT", (⟨false, refreshWorld2⟩ : JobWorld)))],
      p.2.2.limiterErr = false ∧ p.2.2.fetch.first.status = 401 := by decide
  refine ⟨?_, ?_⟩
  · simpa using (per_worker_refresh _ h).1
  · exact (per_worker_refresh _ h).2 _ (List.mem_cons_self _ _) "A1" "R1" rfl
      (by decide) (by decide) rfl ⟨emptyChain, rfl⟩

/-- C4 counterexample: stability fails. For the input [tieA, tieB] — two
records with equal volatility 5 — the reversed output [tieB, tieA] is a
sorted permutation and hence an allowed outcome of `sort.Slice` (whose
contract explicitly does not guarantee stability), and it does not preserve
the input order of the tied records. -/
theorem ranking_sort_stability_counterexample :
    ¬ (∀ ys, sortSliceSpec [tieA, tieB] ys → stableTies [tieA, tieB] ys) := by
  intro h
  have hspec : sortSliceSpec [tieA, tieB] [tieB, tieA] := by
    constructor
    · exact List.Perm.swap _ _ _
    · refine List.pairwise_cons.mpr ⟨?_, List.pairwise_singleton _ _⟩
      intro b hb
      rw [List.mem_singleton] at hb
      subst hb
      decide
  have hst := h _ hspec 5
  rw [show ([tieB, tieA].filter (fun o => decide (o.Volatility = 5))) = [tieB, tieA] from rfl,
      show ([tieA, tieB].filter (fun o => decide (o.Volatility = 5))) = [tieA, tieB] from rfl]
    at hst
  simp only [List.cons.injEq] at hst
  have hsym := congrArg Option.OptionSymbol hst.1
  exact absurd hsym (by decide)

/-- C4 amended: every outcome allowed for `sort.Slice` with the volatility
comparator is fully descending — any earlier record has volatility at least
that of any later record — and a sorted permutation always exists (the
contract is satisfiable); stability is not guaranteed, so records with
equal volatility may appear in either order. -/
theorem ranking_sort_fully_descending (xs ys : List Option)
    (hspec : sortSliceSpec xs ys) :
    (∀ i j : Fin ys.length, i < j → (ys.get j).Volatility ≤ (ys.get i).Volatility) ∧
    ∃ zs, sortSliceSpec xs zs := by
  constructor
  · intro i j hij
    have hp := hspec.2
    rw [List.pairwise_iff_get] at hp
    have hf := hp i j hij
    simp only [volLess, decide_eq_false_iff_not, not_lt] at hf
    exact hf
  · haveI hdec : DecidableRel (fun a b : Option => b.Volatility ≤ a.Volatility) :=
      fun a b => inferInstanceAs (Decidable (b.Volatility ≤ a.Volatility))
    haveI : IsTotal Option (fun a b => b.Volatility ≤ a.Volatility) :=
      ⟨fun a b => le_total b.Volatility a.Volatility⟩
    haveI : IsTrans Option (fun a b => b.Volatility ≤ a.Volatility) :=
      ⟨fun a b c hab hbc => le_trans hbc hab⟩
    refine ⟨List.insertionSort (fun a b => b.Volatility ≤ a.Volatility) xs,
      (List.perm_insertionSort _ xs).symm, ?_⟩
    have hs := List.sorted_insertionSort (fun a b : Option => b.Volatility ≤ a.Volatility) xs
    exact hs.imp (fun hab => decide_eq_false (not_lt.mpr hab))

/-- C4 amended witness: the theorem at the concrete sorted outcome
[vol 50, vol 10] of the input [vol 10, vol 50]: the later record has the
smaller volatility, and a sorted permutation of the input exists. -/
theorem ranking_sort_fully_descending_witness :
    ((buildOption "AAPL" u0 (mkContract "A1" 10)).Volatility ≤
      (buildOption "AAPL" u0 (mkContract "A2" 50)).Volatility) ∧
    ∃ zs, sortSliceSpec [buildOption "AAPL" u0 (mkContract "A1" 10),
      buildOption "AAPL" u0 (mkContract "A2" 50)] zs := by
  have h := ranking_sort_fully_descending
    [buildOption "AAPL" u0 (mkContract "A1" 10), buildOption "AAPL" u0 (mkContract "A2" 50)]
    [buildOption "AAPL" u0 (mkContract "A2" 50), buildOption "AAPL" u0 (mkContract "A1" 10)]
    ⟨List.Perm.swap _ _ _, by
      refine List.pairwise_cons.mpr ⟨?_, List.pairwise_singleton _ _⟩
      intro b hb
      rw [List.mem_singleton] at hb
      subst hb
      decide⟩
  exact ⟨h.1 ⟨0, by decide⟩ ⟨1, by decide⟩ (by decide), h.2⟩

set_option maxRecDepth 100000 in
/-- C7 counterexample: the claimed sliding-window bound fails. 121 workers
calling `Wait` at time 0 all get through by time 1/120 s — more than
C = 120 admissions inside one window of the claimed refill period (60 s for
C = 120 at the claimed R = 120 per minute; the code in fact refills at 120
per second, `rate.Limit(120)`). -/
theorem rate_limiter_window_counterexample :
    ¬ (admissionsWithin (waitRun schwabLimiter limiterStart (List.replicate 121 0)) 0 60 ≤ 120) := by
  have h : admissionsWithin (waitRun schwabLimiter limiterStart (List.replicate 121 0)) 0 60 =
      121 := by
    with_unfolding_all rfl
  omega

/-- Helper: bucket-law bound for the admission times produced by `Wait`:
if the bucket holds at most `burst + limit * last - n` tokens after `n`
admissions, then the `k`-th further admission cannot happen before the
cumulative capacity `burst + limit * t` reaches `n + k + 1`. -/
theorem waitRun_admission_index_bound (l : Limiter) (hpos : 0 < l.limit) :
    ∀ (ts : List ℚ) (s : LimState) (n : ℕ),
      ts.Pairwise (· ≤ ·) → (∀ t ∈ ts, s.last ≤ t) →
      s.tokens ≤ l.burst + l.limit * s.last - n →
      ∀ k (hk : k < (waitRun l s ts).length),
        ((n : ℚ) + k + 1) ≤ l.burst + l.limit * ((waitRun l s ts).get ⟨k, hk⟩) := by
  intro ts
  induction ts with
  | nil =>
      intro s n _ _ _ k hk
      simp [waitRun] at hk
  | cons t rest ih =>
      intro s n hsort hge hinv k hk
      obtain ⟨hts, hrest⟩ := List.pairwise_cons.mp hsort
      have hlast : s.last ≤ t := hge t (List.mem_cons_self _ _)
      have hadv : advance l s t ≤ l.burst + l.limit * t - n := by
        calc advance l s t ≤ s.tokens + (t - s.last) * l.limit := by
              rw [advance]
              split
              · rename_i hgt; exact le_of_lt hgt
              · exact le_refl _
          _ ≤ (l.burst + l.limit * s.last - n) + (t - s.last) * l.limit := by
              have hmul : (0 : ℚ) ≤ (t - s.last) * l.limit :=
                mul_nonneg (by linarith) (le_of_lt hpos)
              linarith [hinv]
          _ = l.burst + l.limit * t - n := by ring
      have htokb : advance l s t - 1 ≤ l.burst + l.limit * t - (n + 1) := by
        linarith
      have hact : ((n : ℚ) + 1) ≤ l.burst + l.limit * (waitStep l s t).2 := by
        by_cases hneg : advance l s t - 1 < 0
        · have hstep : (waitStep l s t).2 = t + (-(advance l s t - 1)) / l.limit := by
            simp only [waitStep]
            rw [if_pos hneg]
          rw [hstep]
          have hdiv : l.limit * (t + -(advance l s t - 1) / l.limit) =
              l.limit * t - (advance l s t - 1) := by
            field_simp
            ring
          rw [hdiv]
          linarith
        · push_neg at hneg
          have hstep : (waitStep l s t).2 = t := by
            simp only [waitStep]
            rw [if_neg (by linarith)]
          rw [hstep]
          linarith
      cases k with
      | zero =>
          have hget : (waitRun l s (t :: rest)).get ⟨0, hk⟩ = (waitStep l s t).2 := rfl
          rw [hget]
          push_cast
          linarith
      | succ k2 =>
          have hk2 : k2 < (waitRun l (waitStep l s t).1 rest).length := by
            have : (waitRun l s (t :: rest)).length =
                (waitRun l (waitStep l s t).1 rest).length + 1 := by
              simp [waitRun]
            omega
          have hge2 : ∀ t2 ∈ rest, (waitStep l s t).1.last ≤ t2 := by
            intro t2 ht2
            have : (waitStep l s t).1.last = t := rfl
            rw [this]
            exact hts t2 ht2
          have hinv2 : (waitStep l s t).1.tokens ≤
              l.burst + l.limit * (waitStep l s t).1.last - (n + 1 : ℕ) := by
            have h1 : (waitStep l s t).1.tokens = advance l s t - 1 := rfl
            have h2 : (waitStep l s t).1.last = t := rfl
            rw [h1, h2]
            push_cast
            linarith
          have hrec := ih (waitStep l s t).1 (n + 1) hrest hge2 hinv2 k2 hk2
          have hget : (waitRun l s (t :: rest)).get ⟨k2 + 1, hk⟩ =
              (waitRun l (waitStep l s t).1 rest).get ⟨k2, hk2⟩ := rfl
          rw [hget]
          push_cast at hrec ⊢
          linarith

/-- C7 amended: the limiter of src/main.go line 155 is a token bucket with
burst capacity 120 refilling at 120 tokens per SECOND (`rate.Limit(120)` is
events per second, not per minute): starting from the full bucket at
process start, the bucket refills completely within one second, and for any
nondecreasing sequence of `Wait` calls the `(k+1)`-th admission cannot
occur before time `t` with `k + 1 ≤ 120 + 120 * t` — bursts beyond the
initial 120 are smoothed at 120 admissions per second, and a window of
length `w` can see up to `120 + 120 * w` admissions, not at most 120. -/
theorem rate_limiter_bucket_bound (ts : List ℚ) (hsort : ts.Pairwise (· ≤ ·))
    (h0 : ∀ t ∈ ts, 0 ≤ t) :
    advance schwabLimiter ⟨0, 0⟩ 1 = 120 ∧
    ∀ k (hk : k < (waitRun schwabLimiter limiterStart ts).length),
      ((k : ℚ) + 1) ≤ 120 + 120 * ((waitRun schwabLimiter limiterStart ts).get ⟨k, hk⟩) := by
  constructor
  · with_unfolding_all rfl
  · intro k hk
    have h := waitRun_admission_index_bound schwabLimiter (by norm_num [schwabLimiter]) ts
      limiterStart 0 hsort (by simpa [limiterStart] using h0)
      (by norm_num [limiterStart, schwabLimiter]) k hk
    simpa [schwabLimiter] using h

/-- C7 amended witness: the theorem for three `Wait` calls at time 0: the
bucket is full after one idle second, and the first admission happens at a
time `t` with 1 ≤ 120 + 120 t. -/
theorem rate_limiter_bucket_bound_witness :
    advance schwabLimiter ⟨0, 0⟩ 1 = 120 ∧
    (((0 : ℕ) : ℚ) + 1) ≤
      120 + 120 * ((waitRun schwabLimiter limiterStart [0, 0, 0]).get ⟨0, by decide⟩) := by
  have h := rate_limiter_bucket_bound [0, 0, 0]
    (by norm_num [List.pairwise_cons]) (by norm_num)
  exact ⟨h.1, h.2 0 (by decide)⟩

/-- C8 counterexample: a non-empty leaf whose first-listed contract has
volatility 0 emits no record: on the chain with exactly one non-empty leaf
the fetch step returns zero records, not one per non-empty leaf, because of
the volatility filter applied before returning. -/
theorem one_record_per_nonempty_leaf_counterexample :
    ¬ ((buildOptions "AAPL" zeroVolChain).length =
       ((chainLeaves zeroVolChain).filter (fun l => !l.isEmpty)).length) := by
  intro h
  rw [show (buildOptions "AAPL" zeroVolChain).length = 0 from by with_unfolding_all rfl] at h
  rw [show ((chainLeaves zeroVolChain).filter (fun l => !l.isEmpty)).length = 1 from by
        with_unfolding_all rfl] at h
  exact absurd h (by decide)

/-- C8 amended: the fetch step emits the leaves of the call-side and
put-side maps in order — one record per non-empty leaf WHOSE FIRST-LISTED
CONTRACT HAS POSITIVE VOLATILITY, built from that first-listed contract —
and every emitted record carries the underlying-level fields (last price,
52-week high/low, percent change) of the chain it came from. -/
theorem records_follow_leaves (stock : String) (chain : OptionsChain) :
    buildOptions stock chain =
      (chainLeaves chain).flatMap (leafRecords stock chain.Underlying) ∧
    (∀ c rest, 0 < (buildOption stock chain.Underlying c).Volatility →
      leafRecords stock chain.Underlying (c :: rest) =
        [buildOption stock chain.Underlying c]) ∧
    (∀ o ∈ buildOptions stock chain,
      o.LastStockPrice = chain.Underlying.Last ∧
      o.stockPercentChange = chain.Underlying.PercentChange ∧
      o.fiftyTwoWeekHigh = chain.Underlying.FiftyTwoWeekHigh ∧
      o.fiftyTwoWeekLow = chain.Underlying.FiftyTwoWeekLow) := by
  refine ⟨?_, ?_, ?_⟩
  · simp only [buildOptions, chainLeaves, List.flatMap_assoc, List.flatMap_map]
  · intro c rest h
    simp only [leafRecords]
    split
    · rfl
    · rename_i hneg
      exact absurd h hneg
  · intro o h
    simp only [buildOptions, List.mem_flatMap] at h
    obtain ⟨m, -, ep, -, sp, -, ho⟩ := h
    cases hc : sp.2 with
    | nil => rw [hc] at ho; simp [leafRecords] at ho
    | cons c rest =>
        rw [hc] at ho
        simp only [leafRecords] at ho
        split at ho
        · rw [List.mem_singleton] at ho
          subst ho
          exact ⟨rfl, rfl, rfl, rfl⟩
        · simp at ho

/-- C8 amended witness: the theorem at the concrete AAPL chain: the output
follows the flattened leaves, the volatility-10 leaf contributes exactly the
record built from its first contract, and that record carries the last
price of the AAPL underlying. -/
theorem records_follow_leaves_witness :
    buildOptions "AAPL" chainAAPL =
      (chainLeaves chainAAPL).flatMap (leafRecords "AAPL" chainAAPL.Underlying) ∧
    leafRecords "AAPL" chainAAPL.Underlying [mkContract "A1" 10] =
      [buildOption "AAPL" chainAAPL.Underlying (mkContract "A1" 10)] ∧
    (buildOption "AAPL" ⟨1, 150, 200, 100⟩ (mkContract "A1" 10)).LastStockPrice =
      chainAAPL.Underlying.Last := by
  have h := records_follow_leaves "AAPL" chainAAPL
  exact ⟨h.1,
    h.2.1 (mkContract "A1" 10) [] (show (0 : ℚ) < 10 by norm_num),
    (h.2.2 (buildOption "AAPL" ⟨1, 150, 200, 100⟩ (mkContract "A1" 10))
      (List.mem_cons_self _ _)).1⟩

/-- C9 counterexample: on a tickers file containing a blank line and a line
with surrounding whitespace, `readStocksFile` returns an empty symbol and a
whitespace-padded symbol — nothing is trimmed and blank lines are not
skipped. -/
theorem tickers_not_trimmed_counterexample :
    ¬ (∀ l ∈ readStocksFile
          ['A', 'A', 'P', 'L', '\n', '\n', ' ', ' ', 'M', 'S', 'F', 'T', ' ', '\n'],
        l ≠ [] ∧ l.head? ≠ some ' ') := by
  decide

/-- Helper: scanning a newline-free line followed by a newline produces that
line (prefixed with whatever is in the accumulator) as the next token. -/
theorem scanLinesGo_line (l : List Char) (hl : '\n' ∉ l) :
    ∀ (acc rest : List Char),
      scanLinesGo acc (l ++ '\n' :: rest) =
        dropCR (acc.reverse ++ l) :: scanLinesGo [] rest := by
  induction l with
  | nil =>
      intro acc rest
      simp [scanLinesGo]
  | cons ch l ih =>
      intro acc rest
      rw [List.mem_cons, not_or] at hl
      have hch : ch ≠ '\n' := fun hc => hl.1 hc.symm
      simp only [List.cons_append, scanLinesGo]
      rw [if_neg hch]
      simp only [List.append_eq]
      rw [ih hl.2 (ch :: acc) rest]
      simp

/-- C9 amended: `readStocksFile` returns one entry per input line, each
line VERBATIM (only the line terminator is removed): surrounding whitespace
is kept and blank lines are kept — the claimed trimming and blank-line
skipping do not happen. -/
theorem tickers_read_verbatim (lines : List (List Char))
    (h : ∀ l ∈ lines, '\n' ∉ l ∧ l.getLast? ≠ some '\r') :
    readStocksFile (linesToFile lines) = lines := by
  induction lines with
  | nil => rfl
  | cons l rest ih =>
      have hl := h l (List.mem_cons_self _ _)
      have hrest := fun q hq => h q (List.mem_cons_of_mem _ hq)
      simp only [readStocksFile, linesToFile, List.flatMap_cons] at ih ⊢
      rw [List.append_assoc, List.singleton_append, scanLinesGo_line l hl.1 [] _]
      rw [show ([] : List Char).reverse ++ l = l by simp]
      rw [show dropCR l = l from by unfold dropCR; rw [if_neg hl.2]]
      rw [ih hrest]

/-- C9 amended witness: the theorem at a concrete three-line file holding a
normal symbol, a blank line and a padded symbol: all three come back
verbatim. -/
theorem tickers_read_verbatim_witness :
    readStocksFile (linesToFile [['A', 'A', 'P', 'L'], [], [' ', 'M', 'S']]) =
      [['A', 'A', 'P', 'L'], [], [' ', 'M', 'S']] :=
  tickers_read_verbatim _ (by decide)

end Options

